import Mathlib

/-!
Verification of the Flow-App daily scheduling and adaptive-difficulty
calibration engine, shallowly embedded from
`src/lib/scheduling/engine.ts` and `src/lib/scheduling/challenge-skill.ts`.

Modelling conventions:

* JavaScript `number` arithmetic is embedded as exact rational arithmetic
  over `ℚ`; decimal literals (`0.8`, `1.04`, `0.15`, ...) denote the exact
  rationals the source spells.  The transcendental `Math.exp` cannot be a
  computable rational function, so the scoring pipeline is parametrised by
  an arbitrary `expQ : ℚ → ℚ` standing for `Math.exp`; the analytic model
  `calculateChallengeSkillScore` over `ℝ` uses `Real.exp` itself.
* `Math.floor` is `Int.floor`; `Math.round` rounds half up (`⌊q + 1/2⌋`),
  which is the JavaScript semantics; the JavaScript `%` operator truncates
  toward zero (`jsMod`).
* JavaScript truthiness tests on optional numbers (`p.hoursRequested`,
  `plan.energyRating`, `todayEnergy`) are encoded as `·.getD 0 ≠ 0`
  (both `null`/absent and `0` are falsy); truthiness of a string is
  non-emptiness.
* `Array.prototype.sort` is a stable sort with respect to the (total,
  transitive) comparator the source passes, so it is modelled by
  `List.insertionSort` with the corresponding relation; `[...]` spreads
  and `filter`/`map` produce fresh arrays, so in the pure model they are
  the identity / `List.filter` / `List.map`.
* The JavaScript `Date` API is abstracted by two parameters:
  `getDay : String → Fin 7` for `new Date(s).getDay()` and
  `getTime : String → ℤ` for `new Date(s).getTime()` (milliseconds).
  `new Date().getDay()` (wall clock) in `autoDecideBlockDuration` is
  abstracted as an explicit `today` argument.
* `String.prototype.split(":")` and `Number(...)` on the `"HH:MM"` start
  time are modelled by structurally recursive character-list functions;
  per the specification, malformed time strings are undefined behaviour
  upstream, so `Number` of a non-digit string is mapped to `0`.
-/

namespace Flow

/-- JavaScript `Math.round`: round half toward positive infinity. -/
def jsRound (q : ℚ) : ℤ := ⌊q + 1/2⌋

/-- Rounding to 1 decimal place: `Math.round(q * 10) / 10`. -/
def round1 (q : ℚ) : ℚ := (jsRound (q * 10) : ℚ) / 10

/-- Rounding to 2 decimal places: `Math.round(q * 100) / 100`. -/
def round2 (q : ℚ) : ℚ := (jsRound (q * 100) : ℚ) / 100

/-- Truncation toward zero, as JavaScript coerces in `%`. -/
def jsTrunc (q : ℚ) : ℤ := if 0 ≤ q then ⌊q⌋ else ⌈q⌉

/-- JavaScript `%` on numbers: remainder with the sign of the dividend. -/
def jsMod (a b : ℚ) : ℚ := a - b * (jsTrunc (a / b) : ℚ)

/-- The difficulty-rating feedback values (`difficulty_rating` enum). -/
inductive Rating where
  | too_easy
  | just_right
  | too_hard
deriving DecidableEq

/-- Input record of the calibration engine (`FeedbackWithDifficulty`). -/
structure FeedbackWithDifficulty where
  difficultyRating : Option Rating
  taskDifficulty : ℚ
  flowRating : Option ℚ
  completedAt : ℤ
deriving DecidableEq

/-- Input record of the calibration engine (`DailyPlanSummary`). -/
structure DailyPlanSummary where
  date : String
  hoursRequested : Option ℚ
  energyRating : Option ℚ
  eodReviewCompleted : Bool
deriving DecidableEq

/-- The computed calibration profile (`CalibrationProfile`).  The
`energyByDay` record with integer keys is modelled as an association list
in ascending key order, which is the enumeration order of a JavaScript
object with integer keys. -/
structure CalibrationProfile where
  skillLevel : ℚ
  idealDifficulty : ℚ
  confidence : ℚ
  dataPoints : ℕ
  energyByDay : List (ℕ × ℚ)
  avgTasksPerDay : ℚ
  avgHoursPerDay : ℚ
  currentStreak : ℕ
deriving DecidableEq

/-- Truthiness of `plan.energyRating && plan.date` in the energy
accumulation loop of `computeCalibrationProfile`. -/
def energyPlanRelevant (p : DailyPlanSummary) : Bool :=
  decide (p.energyRating.getD 0 ≠ 0) && decide (p.date ≠ "")

/-- The `energyByDay` computation of `computeCalibrationProfile`: group
daily summaries carrying an energy rating by weekday of their date,
average per weekday (rounded to 1 decimal), keys in ascending order. -/
def energyByDayOf (getDay : String → Fin 7) (dailyPlanData : List DailyPlanSummary) :
    List (ℕ × ℚ) :=
  (List.range 7).filterMap (fun day =>
    let group := dailyPlanData.filter
      (fun p => energyPlanRelevant p && ((getDay p.date : ℕ) == day))
    if group.isEmpty then none
    else some (day,
      round1 ((group.foldl (fun total p => total + p.energyRating.getD 0) 0) /
        (group.length : ℚ))))

/-- The streak walk of `computeCalibrationProfile`: starting from the most
recent reviewed day, count while the gap to the next entry is at most 1.5
days (`(prev - curr) / (1000*60*60*24) ≤ 1.5`). -/
def streakWalk (getTime : String → ℤ) : DailyPlanSummary → List DailyPlanSummary → ℕ
  | _, [] => 0
  | prev, curr :: rest =>
    if (((getTime prev.date - getTime curr.date : ℤ) : ℚ) / (1000 * 60 * 60 * 24)) ≤ 1.5 then
      1 + streakWalk getTime curr rest
    else 0

/-- The `currentStreak` computation: filter summaries with a completed
end-of-day review, sort by date descending (the source spreads
`dailyPlanData` before filtering; both produce fresh arrays), then walk. -/
def currentStreakOf (getTime : String → ℤ) (dailyPlanData : List DailyPlanSummary) : ℕ :=
  let sortedPlans := List.insertionSort (fun a b => getTime b.date ≤ getTime a.date)
    (dailyPlanData.filter (fun p => p.eodReviewCompleted))
  match sortedPlans with
  | [] => 0
  | p :: rest => 1 + streakWalk getTime p rest

/-- Embedding of `computeCalibrationProfile` from
`src/lib/scheduling/challenge-skill.ts`.  `getDay`/`getTime` abstract the
JavaScript `Date` API (see the file header). -/
def computeCalibrationProfile (getDay : String → Fin 7) (getTime : String → ℤ)
    (feedbackEntries : List FeedbackWithDifficulty)
    (dailyPlanData : List DailyPlanSummary) : CalibrationProfile :=
  if feedbackEntries.length < 3 then
    { skillLevel := 5
      idealDifficulty := 5.2
      confidence := 0
      dataPoints := feedbackEntries.length
      energyByDay := []
      avgTasksPerDay := 0
      avgHoursPerDay := 0
      currentStreak := 0 }
  else
    let justRightTasks := feedbackEntries.filter
      (fun f => f.difficultyRating == some Rating.just_right)
    let tooEasyTasks := feedbackEntries.filter
      (fun f => f.difficultyRating == some Rating.too_easy)
    let tooHardTasks := feedbackEntries.filter
      (fun f => f.difficultyRating == some Rating.too_hard)
    let skillLevel0 : ℚ :=
      if justRightTasks.length ≠ 0 then
        let difficulties := List.insertionSort (fun a b : ℚ => a ≤ b)
          (justRightTasks.map (fun f => f.taskDifficulty))
        let mid := difficulties.length / 2
        if difficulties.length % 2 = 0 then
          (difficulties.getD (mid - 1) 0 + difficulties.getD mid 0) / 2
        else difficulties.getD mid 0
      else
        let easyAvg : ℚ :=
          if tooEasyTasks.length ≠ 0 then
            tooEasyTasks.foldl (fun sum f => sum + f.taskDifficulty) 0 /
              (tooEasyTasks.length : ℚ)
          else 3
        let hardAvg : ℚ :=
          if tooHardTasks.length ≠ 0 then
            tooHardTasks.foldl (fun sum f => sum + f.taskDifficulty) 0 /
              (tooHardTasks.length : ℚ)
          else 7
        (easyAvg + hardAvg) / 2
    let skillLevel := max 1 (min 10 skillLevel0)
    let idealDifficulty := min 10 (skillLevel * 1.04)
    let confidence := min 1 ((feedbackEntries.length : ℚ) / 33)
    let daysWithPlans := dailyPlanData.filter (fun p => decide (p.hoursRequested.getD 0 ≠ 0))
    let avgHoursPerDay : ℚ :=
      if daysWithPlans.length ≠ 0 then
        daysWithPlans.foldl (fun sum p => sum + p.hoursRequested.getD 0) 0 /
          (daysWithPlans.length : ℚ)
      else 0
    { skillLevel := round1 skillLevel
      idealDifficulty := round1 idealDifficulty
      confidence := round2 confidence
      dataPoints := feedbackEntries.length
      energyByDay := energyByDayOf getDay dailyPlanData
      avgTasksPerDay := 0
      avgHoursPerDay := round1 avgHoursPerDay
      currentStreak := currentStreakOf getTime dailyPlanData }

/-- Embedding of `calculateChallengeSkillScore` with `Math.exp` abstracted
by `expQ`; this is the version the (computable) scoring pipeline of the
schedule generator consumes. -/
def calculateChallengeSkillScoreQ (expQ : ℚ → ℚ) (taskDifficulty : ℚ)
    (profile : CalibrationProfile) : ℚ :=
  let delta := |taskDifficulty - profile.idealDifficulty|
  let sigma : ℚ := 2
  let score := expQ (-(delta * delta) / (2 * sigma * sigma))
  let defaultScore := max 0 (1 - |taskDifficulty - 5| * 0.15)
  score * profile.confidence + defaultScore * (1 - profile.confidence)

/-- Analytic model of `calculateChallengeSkillScore` over the reals, with
`Math.exp` interpreted as the exact exponential `Real.exp`. -/
noncomputable def calculateChallengeSkillScore (taskDifficulty : ℝ)
    (profile : CalibrationProfile) : ℝ :=
  let delta := |taskDifficulty - (profile.idealDifficulty : ℝ)|
  let sigma : ℝ := 2
  let score := Real.exp (-(delta * delta) / (2 * sigma * sigma))
  let defaultScore := max 0 (1 - |taskDifficulty - 5| * 0.15)
  score * (profile.confidence : ℝ) + defaultScore * (1 - (profile.confidence : ℝ))

/-- Task statuses from the database schema (`task_status` enum). -/
inductive TaskStatus where
  | pending
  | scheduled
  | in_progress
  | completed
  | skipped
deriving DecidableEq

/-- The task fields the scheduling core reads (see spec §3; the schema's
persistence-only columns are irrelevant to the engine). -/
structure Task where
  id : ℕ
  title : String
  estimatedMinutes : ℚ
  difficulty : ℚ
  priority : ℚ
  status : TaskStatus
  sortOrder : ℚ
deriving DecidableEq

/-- A task with its scheduling score (the anonymous `{task, score}` pairs
built inside `generateDailySchedule`). -/
structure ScoredTask where
  task : Task
  score : ℚ
deriving DecidableEq

/-- Output record `ScheduledTask`: intra-block position 0 is first. -/
structure ScheduledTask where
  task : Task
  sortOrder : ℕ
deriving DecidableEq

/-- Output block types; `break_` and `buffer` model the `"break"` and
`"buffer"` members of the TypeScript union (never emitted). -/
inductive BlockType where
  | deep_work
  | shallow_work
  | break_
  | buffer
deriving DecidableEq

/-- Output record `ScheduledBlock`. -/
structure ScheduledBlock where
  blockNumber : ℕ
  startTime : String
  endTime : String
  blockType : BlockType
  tasks : List ScheduledTask
  totalMinutes : ℚ
deriving DecidableEq

instance : Inhabited ScheduledBlock :=
  ⟨{ blockNumber := 0, startTime := "", endTime := "", blockType := BlockType.deep_work,
     tasks := [], totalMinutes := 0 }⟩

/-- Configuration record `ScheduleConfig` (`calibration?: ... | null` is an
`Option`). -/
structure ScheduleConfig where
  startTime : String
  hoursRequested : ℚ
  blockDurationMinutes : ℚ
  breakDurationMinutes : ℚ
  calibration : Option CalibrationProfile

/-- Split a character list at every occurrence of `c`, modelling
`String.prototype.split` with a single-character separator. -/
def splitOnChar (c : Char) : List Char → List (List Char)
  | [] => [[]]
  | ch :: rest =>
    let r := splitOnChar c rest
    if ch = c then [] :: r
    else
      match r with
      | [] => [[ch]]
      | g :: gs => (ch :: g) :: gs

/-- Parse a decimal digit. -/
def decDigit (c : Char) : Option ℕ :=
  if '0' ≤ c ∧ c ≤ '9' then some (c.toNat - '0'.toNat) else none

/-- Accumulate the value of a digit string. -/
def digitsAux : ℕ → List Char → Option ℕ
  | acc, [] => some acc
  | acc, c :: cs =>
    match decDigit c with
    | some d => digitsAux (acc * 10 + d) cs
    | none => none

/-- JavaScript `Number(...)` restricted to the nonnegative-integer strings
a well-formed `"HH:MM"` yields; non-digit input (NaN upstream, undefined
behaviour per spec §7) is mapped to 0. -/
def jsNumber (s : List Char) : ℚ :=
  match digitsAux 0 s with
  | some n => (n : ℚ)
  | none => 0

/-- Embedding of `parseTime`: minutes since midnight of `"HH:MM"`. -/
def parseTime (timeStr : String) : ℚ :=
  let parts := (splitOnChar ':' timeStr.toList).map jsNumber
  parts.getD 0 0 * 60 + parts.getD 1 0

/-- String rendering of the (integer) hour/minute values appearing in
`formatTime`; JavaScript decimal formatting of non-integers is not
modelled (all reachable values are integers). -/
def numToString (q : ℚ) : String :=
  if q.den = 1 then toString q.num else toString q.num ++ "/" ++ toString q.den

/-- JavaScript `padStart(2, "0")`. -/
def padStart2 (s : String) : String :=
  if s.length < 2 then String.mk (List.replicate (2 - s.length) '0') ++ s else s

/-- Embedding of `formatTime`: minutes since midnight to `"HH:MM"`,
wrapping the hour modulo 24. -/
def formatTime (minutes : ℚ) : String :=
  let h := jsMod ((⌊minutes / 60⌋ : ℤ) : ℚ) 24
  let m := jsMod minutes 60
  padStart2 (numToString h) ++ ":" ++ padStart2 (numToString m)

/-- Embedding of `calculateTaskScore` (weights 30% priority, 40% urgency
placeholder, 20% challenge-skill, 10% recency). -/
def calculateTaskScore (expQ : ℚ → ℚ) (task : Task)
    (calibration : Option CalibrationProfile) : ℚ :=
  let priorityScore := task.priority / 5
  let urgencyScore : ℚ := 0.5
  let challengeScore : ℚ :=
    match calibration with
    | some c =>
      if 0 < c.confidence then calculateChallengeSkillScoreQ expQ task.difficulty c
      else max 0 (1 - |task.difficulty - 5| * 0.15)
    | none => max 0 (1 - |task.difficulty - 5| * 0.15)
  priorityScore * 0.3 + urgencyScore * 0.4 + challengeScore * 0.2 +
    (1 - task.sortOrder * 0.01) * 0.1

/-- Capacity computation of `generateDailySchedule`: total requested
minutes. -/
def totalMinutesOf (config : ScheduleConfig) : ℚ := config.hoursRequested * 60

/-- Capacity computation: length of one block plus its break. -/
def blockWithBreakOf (config : ScheduleConfig) : ℚ :=
  config.blockDurationMinutes + config.breakDurationMinutes

/-- Capacity computation: the reserved 10% buffer. -/
def bufferMinutesOf (config : ScheduleConfig) : ℤ := ⌊totalMinutesOf config * 0.1⌋

/-- Capacity computation: minutes available for blocks. -/
def effectiveMinutesOf (config : ScheduleConfig) : ℚ :=
  totalMinutesOf config - (bufferMinutesOf config : ℚ)

/-- Capacity computation: `effectiveBlocks = max(1, floor(effective / blockWithBreak))`.
(Rational division by a zero `blockWithBreak` yields 0 here where
JavaScript would produce `Infinity`; that degenerate configuration makes
the source loop unboundedly and is outside the spec.)  The unused local
`numBlocks` of the source is omitted. -/
def effectiveBlocksOf (config : ScheduleConfig) : ℕ :=
  (max 1 ⌊effectiveMinutesOf config / blockWithBreakOf config⌋).toNat

/-- The greedy candidate scan of `generateDailySchedule` (lines 96-104):
walk the candidate list in order, adding any task that still fits within
`blockDur`, and stop as soon as the filled minutes reach 80% of the block.
Returns the selected tasks in scan order and the filled minutes. -/
def selectGreedy (blockDur : ℚ) : List ScoredTask → ℚ → List ScoredTask × ℚ
  | [], fill => ([], fill)
  | c :: rest, fill =>
    if fill + c.task.estimatedMinutes ≤ blockDur then
      let fill' := fill + c.task.estimatedMinutes
      if blockDur * 0.8 ≤ fill' then ([c], fill')
      else
        let r := selectGreedy blockDur rest fill'
        (c :: r.1, r.2)
    else selectGreedy blockDur rest fill

/-- The "lower the hurdle" step: sort the selected tasks by ascending
difficulty and assign intra-block sort orders 0, 1, ... (the source's
in-place `sort` followed by the `forEach` push). -/
def mkBlockTasks (sel : List ScoredTask) : List ScheduledTask :=
  ((List.insertionSort (fun a b => a.task.difficulty ≤ b.task.difficulty) sel).enum).map
    (fun p => { task := p.2.task, sortOrder := p.1 })

/-- The block-construction loop of `generateDailySchedule` (lines 78-138),
iterating over the block indices with early exit once no tasks remain. -/
def scheduleLoop (blockDur breakDur : ℚ) (effectiveBlocks : ℕ) :
    List ℕ → List ScoredTask → ℚ → List ScheduledBlock
  | [], _, _ => []
  | i :: is, remaining, currentTime =>
    if remaining.isEmpty then []
    else
      -- the source's `isLastBlock = i === effectiveBlocks - 1` is inlined
      let candidateTasks :=
        if i = effectiveBlocks - 1 then
          List.insertionSort (fun a b => a.task.difficulty ≤ b.task.difficulty) remaining
        else remaining
      let seld := selectGreedy blockDur candidateTasks 0
      let selectedForBlock := seld.1
      let blockMinutesFilled := seld.2
      let selectedIds := selectedForBlock.map (fun s => s.task.id)
      let remaining' := remaining.filter (fun t => !(selectedIds.contains t.task.id))
      let blockTasks := mkBlockTasks selectedForBlock
      if blockTasks.isEmpty then
        scheduleLoop blockDur breakDur effectiveBlocks is remaining' currentTime
      else
        { blockNumber := i + 1
          startTime := formatTime currentTime
          endTime := formatTime (currentTime + blockDur)
          blockType := if i = effectiveBlocks - 1 then BlockType.shallow_work
            else BlockType.deep_work
          tasks := blockTasks
          totalMinutes := blockMinutesFilled } ::
        scheduleLoop blockDur breakDur effectiveBlocks is remaining'
          (currentTime + blockDur + breakDur)

/-- Embedding of `generateDailySchedule`.  The `[...scoredTasks]` spread
initialising `remainingTasks` copies the freshly built scored array, so in
the pure model it is the scored list itself. -/
def generateDailySchedule (expQ : ℚ → ℚ) (pendingTasks : List Task)
    (config : ScheduleConfig) : List ScheduledBlock :=
  if pendingTasks.isEmpty then []
  else
    let scoredTasks := List.insertionSort (fun a b => b.score ≤ a.score)
      ((pendingTasks.filter
          (fun t => t.status == TaskStatus.pending || t.status == TaskStatus.scheduled)).map
        (fun task => { task := task, score := calculateTaskScore expQ task config.calibration }))
    scheduleLoop config.blockDurationMinutes config.breakDurationMinutes
      (effectiveBlocksOf config) (List.range (effectiveBlocksOf config)) scoredTasks
      (parseTime config.startTime)

/-- Embedding of `autoDecideBlockDuration`; `today` abstracts
`new Date().getDay()`. -/
def autoDecideBlockDuration (today : ℕ) (calibration : Option CalibrationProfile)
    (pendingTasks : List Task) : ℚ :=
  match calibration with
  | none => 120
  | some cal =>
    if cal.confidence = 0 then 120
    else if cal.confidence < 0.3 then 90
    else
      let avgHours := cal.avgHoursPerDay
      if cal.confidence < 0.7 then
        if 0 < avgHours ∧ avgHours < 3 then 60
        else if 3 ≤ avgHours ∧ avgHours ≤ 5 then 90
        else 120
      else
        let activeTasks := pendingTasks.filter
          (fun t => t.status == TaskStatus.pending || t.status == TaskStatus.scheduled)
        let avgEstimate := activeTasks.foldl (fun sum t => sum + t.estimatedMinutes) 0 /
          (activeTasks.length : ℚ)
        if activeTasks.length ≠ 0 ∧ avgEstimate < 25 then 60
        else if activeTasks.length ≠ 0 ∧ avgEstimate < 50 then 90
        else
          let todayEnergy := cal.energyByDay.lookup today
          if todayEnergy.getD 0 ≠ 0 ∧ todayEnergy.getD 0 ≤ 2 then 60
          else if todayEnergy.getD 0 ≠ 0 ∧ todayEnergy.getD 0 ≤ 3 then 90
          else if 0 < avgHours ∧ avgHours < 4 then 90
          else 120

/-- Embedding of `resolveBlockDuration`; the default arm models the
`customDuration || 120` truthiness fallback. -/
def resolveBlockDuration (today : ℕ) (mode : String) (customDuration : ℚ)
    (calibration : Option CalibrationProfile) (pendingTasks : List Task) : ℚ :=
  if mode = "60" then 60
  else if mode = "90" then 90
  else if mode = "120" then 120
  else if mode = "custom" then customDuration
  else if mode = "auto" then autoDecideBlockDuration today calibration pendingTasks
  else if customDuration = 0 then 120
  else customDuration

/-- Specification-side median of a list of rationals: sort ascending and
take the middle element, averaging the two middle elements for even
lengths (spec §4.1 step 3). -/
def median (l : List ℚ) : ℚ :=
  let s := List.insertionSort (fun a b : ℚ => a ≤ b) l
  let mid := s.length / 2
  if s.length % 2 = 0 then (s.getD (mid - 1) 0 + s.getD mid 0) / 2
  else s.getD mid 0

/-- Specification-side mean with a default for the empty list. -/
def meanOr (l : List ℚ) (dflt : ℚ) : ℚ :=
  if l.length = 0 then dflt else l.sum / (l.length : ℚ)

/-- Specification-side skill level, following the claim's words: median of
the `just_right` difficulties when that group is non-empty, otherwise the
average of the `too_easy` mean (default 3) and the `too_hard` mean
(default 7). -/
def skillLevelSpec (feedbackEntries : List FeedbackWithDifficulty) : ℚ :=
  let justRight := (feedbackEntries.filter
    (fun f => f.difficultyRating == some Rating.just_right)).map (fun f => f.taskDifficulty)
  let tooEasy := (feedbackEntries.filter
    (fun f => f.difficultyRating == some Rating.too_easy)).map (fun f => f.taskDifficulty)
  let tooHard := (feedbackEntries.filter
    (fun f => f.difficultyRating == some Rating.too_hard)).map (fun f => f.taskDifficulty)
  if justRight ≠ [] then median justRight
  else (meanOr tooEasy 3 + meanOr tooHard 7) / 2

/-- Folding task difficulties equals summing the mapped difficulties. -/
lemma foldl_taskDifficulty (l : List FeedbackWithDifficulty) :
    l.foldl (fun sum f => sum + f.taskDifficulty) 0 =
      (l.map (fun f => f.taskDifficulty)).sum := by
  rw [List.sum_eq_foldl, List.foldl_map]

/-- Folding requested hours equals summing the mapped hours. -/
lemma foldl_hoursRequested (l : List DailyPlanSummary) :
    l.foldl (fun sum p => sum + p.hoursRequested.getD 0) 0 =
      (l.map (fun p => p.hoursRequested.getD 0)).sum := by
  rw [List.sum_eq_foldl, List.foldl_map]

/-- C1: with fewer than 3 feedback entries, `computeCalibrationProfile`
returns the neutral default profile (skillLevel 5, idealDifficulty 5.2,
confidence 0, dataPoints = length, empty energyByDay, avgHoursPerDay 0,
currentStreak 0), regardless of entry content and of the daily plan
summaries. -/
theorem computeCalibrationProfile_default (getDay : String → Fin 7)
    (getTime : String → ℤ) (fb : List FeedbackWithDifficulty)
    (dp : List DailyPlanSummary) (h : fb.length < 3) :
    computeCalibrationProfile getDay getTime fb dp =
      { skillLevel := 5
        idealDifficulty := 5.2
        confidence := 0
        dataPoints := fb.length
        energyByDay := []
        avgTasksPerDay := 0
        avgHoursPerDay := 0
        currentStreak := 0 } := by
  unfold computeCalibrationProfile
  rw [if_pos h]

/-- Two arbitrary nontrivial feedback entries. -/
def fbTwo : List FeedbackWithDifficulty :=
  [{ difficultyRating := some Rating.too_hard, taskDifficulty := 9,
     flowRating := some 2, completedAt := 0 },
   { difficultyRating := some Rating.too_easy, taskDifficulty := 1,
     flowRating := none, completedAt := 5 }]

/-- A nontrivial daily plan summary. -/
def dpOne : List DailyPlanSummary :=
  [{ date := "2024-01-01", hoursRequested := some 4, energyRating := some 3,
     eodReviewCompleted := true }]

/-- Witness for C1 at a concrete 2-entry input. -/
theorem computeCalibrationProfile_default_witness :
    computeCalibrationProfile (fun _ => (0 : Fin 7)) (fun _ => 0) fbTwo dpOne =
      { skillLevel := 5
        idealDifficulty := 5.2
        confidence := 0
        dataPoints := fbTwo.length
        energyByDay := []
        avgTasksPerDay := 0
        avgHoursPerDay := 0
        currentStreak := 0 } :=
  computeCalibrationProfile_default (fun _ => (0 : Fin 7)) (fun _ => 0) fbTwo dpOne
    (by norm_num [fbTwo])

/-- C2: with at least 3 feedback entries, the profile's skill level is the
claim's median-or-fallback estimate, clamped to [1, 10] and rounded to one
decimal place. -/
theorem computeCalibrationProfile_skillLevel (getDay : String → Fin 7)
    (getTime : String → ℤ) (fb : List FeedbackWithDifficulty)
    (dp : List DailyPlanSummary) (h : 3 ≤ fb.length) :
    (computeCalibrationProfile getDay getTime fb dp).skillLevel =
      round1 (max 1 (min 10 (skillLevelSpec fb))) := by
  unfold computeCalibrationProfile
  rw [if_neg (by omega)]
  simp only [skillLevelSpec]
  rcases eq_or_ne (fb.filter (fun f => f.difficultyRating == some Rating.just_right)) []
    with hjr | hjr
  · simp only [hjr, List.map_nil, List.length_nil, ne_eq, not_true_eq_false, if_false,
      not_false_eq_true, List.map_eq_nil_iff]
    simp only [meanOr, List.length_map, foldl_taskDifficulty, ite_not]
  · have hlen : (fb.filter (fun f => f.difficultyRating == some Rating.just_right)).length ≠ 0 := by
      simpa [List.length_eq_zero] using hjr
    simp only [hlen, ne_eq, not_false_eq_true, if_true, List.map_eq_nil_iff, hjr, median]

/-- Three `just_right` feedback entries with difficulties 2, 9, 4. -/
def fbThree : List FeedbackWithDifficulty :=
  [{ difficultyRating := some Rating.just_right, taskDifficulty := 2,
     flowRating := none, completedAt := 0 },
   { difficultyRating := some Rating.just_right, taskDifficulty := 9,
     flowRating := some 5, completedAt := 1 },
   { difficultyRating := some Rating.just_right, taskDifficulty := 4,
     flowRating := none, completedAt := 2 }]

/-- Witness for C2 at a concrete 3-entry input. -/
theorem computeCalibrationProfile_skillLevel_witness :
    (computeCalibrationProfile (fun _ => (0 : Fin 7)) (fun _ => 0) fbThree []).skillLevel =
      round1 (max 1 (min 10 (skillLevelSpec fbThree))) :=
  computeCalibrationProfile_skillLevel (fun _ => (0 : Fin 7)) (fun _ => 0) fbThree []
    (by norm_num [fbThree])

/-- C3: the scheduling score is priority/5 weighted 30%, a constant 0.5
urgency placeholder weighted 40%, the challenge-skill score (personalised
exactly when a profile with positive confidence is supplied) weighted 20%,
and an unclamped `1 - sortOrder * 0.01` recency term weighted 10%. -/
theorem calculateTaskScore_formula (expQ : ℚ → ℚ) (task : Task)
    (cal : Option CalibrationProfile) :
    calculateTaskScore expQ task cal =
      (task.priority / 5) * 0.3 + 0.5 * 0.4 +
      (match cal with
       | some c =>
         if 0 < c.confidence then calculateChallengeSkillScoreQ expQ task.difficulty c
         else max 0 (1 - |task.difficulty - 5| * 0.15)
       | none => max 0 (1 - |task.difficulty - 5| * 0.15)) * 0.2 +
      (1 - task.sortOrder * 0.01) * 0.1 := by
  cases cal <;> rfl

/-- C7: for any confidence in [0, 1] the challenge-skill score lies in
[0, 1]; it is the stated Gaussian/default blend, and at
`taskDifficulty = idealDifficulty` the Gaussian term equals 1. -/
theorem calculateChallengeSkillScore_mem_unitInterval (d : ℝ)
    (p : CalibrationProfile) (h0 : 0 ≤ p.confidence) (h1 : p.confidence ≤ 1) :
    (0 ≤ calculateChallengeSkillScore d p ∧ calculateChallengeSkillScore d p ≤ 1) ∧
    calculateChallengeSkillScore d p =
      Real.exp (-((d - (p.idealDifficulty : ℝ)) ^ 2) / (2 * 2 ^ 2)) * (p.confidence : ℝ) +
        max 0 (1 - |d - (5 : ℝ)| * 0.15) * (1 - (p.confidence : ℝ)) ∧
    (d = (p.idealDifficulty : ℝ) →
      Real.exp (-((d - (p.idealDifficulty : ℝ)) ^ 2) / (2 * 2 ^ 2)) = 1) := by
  have hc0 : (0 : ℝ) ≤ (p.confidence : ℝ) := by exact_mod_cast h0
  have hc1 : (p.confidence : ℝ) ≤ 1 := by exact_mod_cast h1
  have hsq : |d - (p.idealDifficulty : ℝ)| * |d - (p.idealDifficulty : ℝ)| =
      (d - (p.idealDifficulty : ℝ)) ^ 2 := by
    rw [abs_mul_abs_self]; ring
  have hform : calculateChallengeSkillScore d p =
      Real.exp (-((d - (p.idealDifficulty : ℝ)) ^ 2) / (2 * 2 ^ 2)) * (p.confidence : ℝ) +
        max 0 (1 - |d - (5 : ℝ)| * 0.15) * (1 - (p.confidence : ℝ)) := by
    simp only [calculateChallengeSkillScore]
    rw [hsq]
    norm_num
  have hE1 : Real.exp (-((d - (p.idealDifficulty : ℝ)) ^ 2) / (2 * 2 ^ 2)) ≤ 1 := by
    rw [Real.exp_le_one_iff]
    apply div_nonpos_of_nonpos_of_nonneg
    · simpa using sq_nonneg (d - (p.idealDifficulty : ℝ))
    · norm_num
  have hE0 : 0 < Real.exp (-((d - (p.idealDifficulty : ℝ)) ^ 2) / (2 * 2 ^ 2)) :=
    Real.exp_pos _
  have hD0 : (0 : ℝ) ≤ max 0 (1 - |d - (5 : ℝ)| * 0.15) := le_max_left _ _
  have hD1 : max 0 (1 - |d - (5 : ℝ)| * 0.15) ≤ 1 := by
    apply max_le (by norm_num)
    nlinarith [abs_nonneg (d - (5 : ℝ))]
  refine ⟨⟨?_, ?_⟩, hform, ?_⟩
  · rw [hform]
    have : (0 : ℝ) ≤ 1 - (p.confidence : ℝ) := by linarith
    positivity
  · rw [hform]
    nlinarith [hE0.le, hE1, hD0, hD1, hc0, hc1]
  · intro hd
    rw [hd]
    simp

/-- A profile with confidence 1/2, for the C7 witness. -/
def profileHalf : CalibrationProfile :=
  { skillLevel := 5, idealDifficulty := 5.2, confidence := 1/2, dataPoints := 17,
    energyByDay := [], avgTasksPerDay := 0, avgHoursPerDay := 0, currentStreak := 0 }

/-- Witness for C7 at a concrete difficulty and profile. -/
theorem calculateChallengeSkillScore_mem_unitInterval_witness :
    0 ≤ calculateChallengeSkillScore 3 profileHalf ∧
      calculateChallengeSkillScore 3 profileHalf ≤ 1 :=
  (calculateChallengeSkillScore_mem_unitInterval 3 profileHalf
    (by norm_num [profileHalf]) (by norm_num [profileHalf])).1

/-- C8: in "auto" mode, a missing calibration or confidence exactly 0
resolves to 120 minutes, and any confidence strictly between 0 and 0.3
resolves to 90 minutes, independent of the custom duration, the task list
and the day of week. -/
theorem resolveBlockDuration_auto_cases (today : ℕ) (customDuration : ℚ)
    (tasks : List Task) (cal : CalibrationProfile) :
    resolveBlockDuration today "auto" customDuration none tasks = 120 ∧
    (cal.confidence = 0 →
      resolveBlockDuration today "auto" customDuration (some cal) tasks = 120) ∧
    (0 < cal.confidence → cal.confidence < 0.3 →
      resolveBlockDuration today "auto" customDuration (some cal) tasks = 90) := by
  refine ⟨?_, ?_, ?_⟩
  · simp [resolveBlockDuration, autoDecideBlockDuration]
  · intro h
    simp [resolveBlockDuration, autoDecideBlockDuration, h]
  · intro h0 h3
    simp [resolveBlockDuration, autoDecideBlockDuration, ne_of_gt h0, h3]

/-- A profile with confidence 0.2, for the C8 witness. -/
def profileLow : CalibrationProfile :=
  { skillLevel := 5, idealDifficulty := 5.2, confidence := 0.2, dataPoints := 6,
    energyByDay := [], avgTasksPerDay := 0, avgHoursPerDay := 0, currentStreak := 0 }

/-- Witness for C8: the spec's scenario
`resolveBlockDuration("auto", 120, null, []) = 120` and, with a
confidence-0.2 profile, `= 90`. -/
theorem resolveBlockDuration_auto_cases_witness :
    resolveBlockDuration 0 "auto" 120 none [] = 120 ∧
      resolveBlockDuration 0 "auto" 120 (some profileLow) [] = 90 :=
  ⟨(resolveBlockDuration_auto_cases 0 120 [] profileLow).1,
    (resolveBlockDuration_auto_cases 0 120 [] profileLow).2.2
      (by norm_num [profileLow]) (by norm_num [profileLow])⟩

/-- If the greedy scan selects nothing, then no candidate fits the
remaining capacity. -/
lemma selectGreedy_fst_nil (d : ℚ) :
    ∀ (l : List ScoredTask) (fill : ℚ), (selectGreedy d l fill).1 = [] →
      ∀ c ∈ l, ¬ (fill + c.task.estimatedMinutes ≤ d) := by
  intro l
  induction l with
  | nil => intro fill _ c hc; exact absurd hc (List.not_mem_nil c)
  | cons a rest ih =>
    intro fill hnil c hc
    by_cases hfit : fill + a.task.estimatedMinutes ≤ d
    · exfalso
      by_cases hbreak : d * 0.8 ≤ fill + a.task.estimatedMinutes
      · rw [show selectGreedy d (a :: rest) fill = ([a], fill + a.task.estimatedMinutes) from by
          simp only [selectGreedy, if_pos hfit, if_pos hbreak]] at hnil
        simp at hnil
      · rw [show selectGreedy d (a :: rest) fill =
            (a :: (selectGreedy d rest (fill + a.task.estimatedMinutes)).1,
              (selectGreedy d rest (fill + a.task.estimatedMinutes)).2) from by
          simp only [selectGreedy, if_pos hfit, if_neg hbreak]] at hnil
        simp at hnil
    · rw [show selectGreedy d (a :: rest) fill = selectGreedy d rest fill from by
        simp only [selectGreedy, if_neg hfit]] at hnil
      rcases List.mem_cons.mp hc with rfl | hc'
      · exact hfit
      · exact ih fill hnil c hc'

/-- If no candidate fits, the greedy scan selects nothing and leaves the
fill unchanged. -/
lemma selectGreedy_of_forall_not_fit (d : ℚ) :
    ∀ (l : List ScoredTask) (fill : ℚ),
      (∀ c ∈ l, ¬ (fill + c.task.estimatedMinutes ≤ d)) →
      selectGreedy d l fill = ([], fill) := by
  intro l
  induction l with
  | nil => intro fill _; rfl
  | cons a rest ih =>
    intro fill hnf
    simp only [selectGreedy]
    rw [if_neg (hnf a (List.mem_cons_self a rest))]
    exact ih fill (fun c hc => hnf c (List.mem_cons_of_mem a hc))

/-- The filled minutes returned by the greedy scan equal the starting fill
plus the estimated minutes of the selected tasks. -/
lemma selectGreedy_snd (d : ℚ) :
    ∀ (l : List ScoredTask) (fill : ℚ),
      (selectGreedy d l fill).2 =
        fill + (((selectGreedy d l fill).1).map (fun s => s.task.estimatedMinutes)).sum := by
  intro l
  induction l with
  | nil => intro fill; simp [selectGreedy]
  | cons a rest ih =>
    intro fill
    simp only [selectGreedy]
    split_ifs with hfit hbreak
    · simp
    · simp only [List.map_cons, List.sum_cons]
      rw [ih]
      ring
    · exact ih fill

/-- If the greedy scan selected at least one task, the returned fill does
not exceed the block capacity. -/
lemma selectGreedy_le (d : ℚ) :
    ∀ (l : List ScoredTask) (fill : ℚ), (selectGreedy d l fill).1 ≠ [] →
      (selectGreedy d l fill).2 ≤ d := by
  intro l
  induction l with
  | nil => intro fill h; exact absurd rfl h
  | cons a rest ih =>
    intro fill hne
    by_cases hfit : fill + a.task.estimatedMinutes ≤ d
    · by_cases hbreak : d * 0.8 ≤ fill + a.task.estimatedMinutes
      · rw [show selectGreedy d (a :: rest) fill = ([a], fill + a.task.estimatedMinutes) from by
          simp only [selectGreedy, if_pos hfit, if_pos hbreak]]
        exact hfit
      · rw [show selectGreedy d (a :: rest) fill =
            (a :: (selectGreedy d rest (fill + a.task.estimatedMinutes)).1,
              (selectGreedy d rest (fill + a.task.estimatedMinutes)).2) from by
          simp only [selectGreedy, if_pos hfit, if_neg hbreak]]
        rcases eq_or_ne (selectGreedy d rest (fill + a.task.estimatedMinutes)).1 [] with hsel | hsel
        · have h2 := selectGreedy_snd d rest (fill + a.task.estimatedMinutes)
          rw [hsel] at h2
          simp only [List.map_nil, List.sum_nil, add_zero] at h2
          simpa [h2] using hfit
        · exact ih (fill + a.task.estimatedMinutes) hsel
    · rw [show selectGreedy d (a :: rest) fill = selectGreedy d rest fill from by
        simp only [selectGreedy, if_neg hfit]] at hne ⊢
      exact ih fill hne

/-- Sorting the selected tasks and enumerating them assigns the sort
orders 0, 1, ..., n-1 in order. -/
lemma mkBlockTasks_map_sortOrder (sel : List ScoredTask) :
    (mkBlockTasks sel).map (fun st => st.sortOrder) =
      List.range (mkBlockTasks sel).length := by
  unfold mkBlockTasks
  rw [List.map_map, List.length_map]
  have : ((fun st : ScheduledTask => st.sortOrder) ∘
      (fun p : ℕ × ScoredTask => ({ task := p.2.task, sortOrder := p.1 } : ScheduledTask))) =
      Prod.fst := rfl
  rw [this, List.enum_map_fst, List.enum_length]

/-- The task difficulties of a built block are non-decreasing in position. -/
lemma mkBlockTasks_difficulty_sorted (sel : List ScoredTask) :
    ((mkBlockTasks sel).map (fun st => st.task.difficulty)).Pairwise (· ≤ ·) := by
  unfold mkBlockTasks
  rw [List.map_map]
  have hcomp : ((fun st : ScheduledTask => st.task.difficulty) ∘
      (fun p : ℕ × ScoredTask => ({ task := p.2.task, sortOrder := p.1 } : ScheduledTask))) =
      ((fun s : ScoredTask => s.task.difficulty) ∘ Prod.snd) := rfl
  rw [hcomp, ← List.map_map, List.enum_map_snd]
  haveI : IsTotal ScoredTask (fun a b => a.task.difficulty ≤ b.task.difficulty) :=
    ⟨fun a b => le_total a.task.difficulty b.task.difficulty⟩
  haveI : IsTrans ScoredTask (fun a b => a.task.difficulty ≤ b.task.difficulty) :=
    ⟨fun _ _ _ hab hbc => le_trans hab hbc⟩
  have hs := List.sorted_insertionSort
    (fun a b : ScoredTask => a.task.difficulty ≤ b.task.difficulty) sel
  exact List.pairwise_map.mpr hs

/-- The summed estimated minutes of a built block equal those of the
selected tasks (sorting permutes them). -/
lemma mkBlockTasks_map_est_sum (sel : List ScoredTask) :
    ((mkBlockTasks sel).map (fun st => st.task.estimatedMinutes)).sum =
      (sel.map (fun s => s.task.estimatedMinutes)).sum := by
  unfold mkBlockTasks
  rw [List.map_map]
  have hcomp : ((fun st : ScheduledTask => st.task.estimatedMinutes) ∘
      (fun p : ℕ × ScoredTask => ({ task := p.2.task, sortOrder := p.1 } : ScheduledTask))) =
      ((fun s : ScoredTask => s.task.estimatedMinutes) ∘ Prod.snd) := rfl
  rw [hcomp, ← List.map_map, List.enum_map_snd]
  exact ((List.perm_insertionSort _ sel).map _).sum_eq

/-- A built block is empty exactly when nothing was selected. -/
lemma mkBlockTasks_eq_nil_iff (sel : List ScoredTask) :
    mkBlockTasks sel = [] ↔ sel = [] := by
  unfold mkBlockTasks
  rw [List.map_eq_nil_iff, List.enum_eq_nil]
  constructor
  · intro h
    have := congrArg List.length h
    simpa [List.length_insertionSort] using this
  · intro h; simp [h]

/-- Nothing selected builds an empty block. -/
lemma mkBlockTasks_nil : mkBlockTasks [] = [] := rfl

/-- If no remaining task fits into an empty block, the loop never emits
another block: every iteration skips with the pool unchanged. -/
lemma scheduleLoop_of_forall_not_fit (d br : ℚ) (eb : ℕ) :
    ∀ (idxs : List ℕ) (rem : List ScoredTask) (t : ℚ),
      (∀ c ∈ rem, ¬ ((0 : ℚ) + c.task.estimatedMinutes ≤ d)) →
      scheduleLoop d br eb idxs rem t = [] := by
  intro idxs
  induction idxs with
  | nil => intro rem t _; rfl
  | cons i is ih =>
    intro rem t hnf
    rcases eq_or_ne rem [] with rfl | hrem
    · simp [scheduleLoop]
    · have hne : rem.isEmpty = false := List.isEmpty_eq_false.mpr hrem
      by_cases hlast : i = eb - 1
      · have hsel := selectGreedy_of_forall_not_fit d
          (List.insertionSort (fun a b => a.task.difficulty ≤ b.task.difficulty) rem) 0
          (fun c hc => hnf c (((List.perm_insertionSort _ rem).mem_iff).mp hc))
        simp only [scheduleLoop, hne, Bool.false_eq_true, if_false, if_pos hlast, hsel,
          mkBlockTasks_nil, List.map_nil, List.contains_nil, Bool.not_false, List.filter_true,
          List.isEmpty_nil, if_true]
        exact ih rem t hnf
      · have hsel := selectGreedy_of_forall_not_fit d rem 0 hnf
        simp only [scheduleLoop, hne, Bool.false_eq_true, if_false, if_neg hlast, hsel,
          mkBlockTasks_nil, List.map_nil, List.contains_nil, Bool.not_false, List.filter_true,
          List.isEmpty_nil, if_true]
        exact ih rem t hnf

/-- Characterisation of the blocks the loop emits: every member was built
at some iteration index from the greedy selection over that iteration's
candidate list, with block number index+1, the shallow-work type exactly
on the final planned index, the "lower the hurdle" task list, and the
greedy fill as totalMinutes. -/
lemma mem_scheduleLoop (d br : ℚ) (eb : ℕ) :
    ∀ (idxs : List ℕ) (rem : List ScoredTask) (t : ℚ) (b : ScheduledBlock),
      b ∈ scheduleLoop d br eb idxs rem t →
      ∃ i ∈ idxs, ∃ cands : List ScoredTask,
        (selectGreedy d cands 0).1 ≠ [] ∧
        b.blockNumber = i + 1 ∧
        b.blockType =
          (if i = eb - 1 then BlockType.shallow_work else BlockType.deep_work) ∧
        b.tasks = mkBlockTasks (selectGreedy d cands 0).1 ∧
        b.totalMinutes = (selectGreedy d cands 0).2 := by
  intro idxs
  induction idxs with
  | nil => intro rem t b hb; exact absurd hb (List.not_mem_nil b)
  | cons i is ih =>
    intro rem t b hb
    rcases eq_or_ne rem [] with rfl | hrem
    · simp [scheduleLoop] at hb
    · have hne : rem.isEmpty = false := List.isEmpty_eq_false.mpr hrem
      simp only [scheduleLoop, hne, Bool.false_eq_true, if_false] at hb
      set cands := if i = eb - 1 then
          List.insertionSort (fun a b => a.task.difficulty ≤ b.task.difficulty) rem
        else rem with hcands
      by_cases hempty : (mkBlockTasks (selectGreedy d cands 0).1).isEmpty = true
      · rw [if_pos hempty] at hb
        obtain ⟨i', hi', rest⟩ := ih _ _ b hb
        exact ⟨i', List.mem_cons_of_mem i hi', rest⟩
      · rw [if_neg hempty] at hb
        rcases List.mem_cons.mp hb with rfl | hb'
        · refine ⟨i, List.mem_cons_self i is, cands, ?_, rfl, rfl, rfl, rfl⟩
          intro hnil
          rw [hnil, mkBlockTasks_nil] at hempty
          exact hempty List.isEmpty_nil
        · obtain ⟨i', hi', rest⟩ := ih _ _ b hb'
          exact ⟨i', List.mem_cons_of_mem i hi', rest⟩

/-- The emitted block numbers are the consecutive integers starting just
above the first iteration index: a skipped iteration leaves the pool
unchanged, so it is never followed by an emitted block. -/
lemma scheduleLoop_map_blockNumber (d br : ℚ) (eb : ℕ) :
    ∀ (n i : ℕ) (rem : List ScoredTask) (t : ℚ),
      (scheduleLoop d br eb (List.range' i n) rem t).map (fun b => b.blockNumber) =
        List.range' (i + 1)
          ((scheduleLoop d br eb (List.range' i n) rem t).length) := by
  intro n
  induction n with
  | zero => intro i rem t; simp [List.range'_zero, scheduleLoop]
  | succ n ihn =>
    intro i rem t
    rw [List.range'_succ]
    rcases eq_or_ne rem [] with rfl | hrem
    · simp [scheduleLoop]
    · have hne : rem.isEmpty = false := List.isEmpty_eq_false.mpr hrem
      simp only [scheduleLoop, hne, Bool.false_eq_true, if_false]
      set cands := if i = eb - 1 then
          List.insertionSort (fun a b => a.task.difficulty ≤ b.task.difficulty) rem
        else rem with hcands
      by_cases hempty : (mkBlockTasks (selectGreedy d cands 0).1).isEmpty = true
      · rw [if_pos hempty]
        -- the iteration skipped, hence nothing was selected and nothing fits;
        -- the pool is unchanged and all later iterations skip as well
        have hselnil : (selectGreedy d cands 0).1 = [] :=
          (mkBlockTasks_eq_nil_iff _).mp (List.isEmpty_iff.mp hempty)
        have hnf : ∀ c ∈ rem, ¬ ((0 : ℚ) + c.task.estimatedMinutes ≤ d) := by
          intro c hc
          apply selectGreedy_fst_nil d cands 0 hselnil
          rw [hcands]
          split_ifs
          · exact ((List.perm_insertionSort _ rem).mem_iff).mpr hc
          · exact hc
        have hrest : rem.filter
            (fun t0 => !(((selectGreedy d cands 0).1.map (fun s => s.task.id)).contains
              t0.task.id)) = rem := by
          simp [hselnil]
        rw [hrest, scheduleLoop_of_forall_not_fit d br eb _ rem t hnf]
        simp
      · rw [if_neg hempty]
        simp only [List.map_cons, List.length_cons]
        rw [ihn]
        rw [List.range'_succ]

/-- The capacity computation always plans at least one block. -/
lemma one_le_effectiveBlocksOf (cfg : ScheduleConfig) : 1 ≤ effectiveBlocksOf cfg := by
  unfold effectiveBlocksOf
  have h := le_max_left (1 : ℤ) ⌊effectiveMinutesOf cfg / blockWithBreakOf cfg⌋
  omega

/-- The head of a non-empty list is a member. -/
lemma headI_mem {α : Type*} [Inhabited α] {l : List α} (h : l ≠ []) : l.headI ∈ l := by
  cases l with
  | nil => exact absurd rfl h
  | cons a t => exact List.mem_cons_self a t

/-- C4: within every emitted block the assigned intra-block sort orders
are exactly 0, 1, ..., n-1 and the task difficulties are non-decreasing
along them (the "lower the hurdle" invariant), regardless of the score
ordering that selected block membership. -/
theorem generateDailySchedule_lower_the_hurdle (expQ : ℚ → ℚ) (ts : List Task)
    (cfg : ScheduleConfig) (b : ScheduledBlock)
    (hb : b ∈ generateDailySchedule expQ ts cfg) :
    b.tasks.map (fun st => st.sortOrder) = List.range b.tasks.length ∧
    (b.tasks.map (fun st => st.task.difficulty)).Pairwise (· ≤ ·) := by
  unfold generateDailySchedule at hb
  split at hb
  · exact absurd hb (List.not_mem_nil b)
  · obtain ⟨i, hi, cands, hsel, hnum, htype, htasks, htot⟩ :=
      mem_scheduleLoop _ _ _ _ _ _ b hb
    rw [htasks]
    exact ⟨mkBlockTasks_map_sortOrder _, mkBlockTasks_difficulty_sorted _⟩

/-- C5: every emitted block's `totalMinutes` is the sum of its tasks'
estimated minutes, and it never exceeds the configured block duration. -/
theorem generateDailySchedule_block_capacity (expQ : ℚ → ℚ) (ts : List Task)
    (cfg : ScheduleConfig) (hpos : ∀ t ∈ ts, 0 < t.estimatedMinutes)
    (b : ScheduledBlock) (hb : b ∈ generateDailySchedule expQ ts cfg) :
    b.totalMinutes = (b.tasks.map (fun st => st.task.estimatedMinutes)).sum ∧
    b.totalMinutes ≤ cfg.blockDurationMinutes := by
  unfold generateDailySchedule at hb
  split at hb
  · exact absurd hb (List.not_mem_nil b)
  · obtain ⟨i, hi, cands, hsel, hnum, htype, htasks, htot⟩ :=
      mem_scheduleLoop _ _ _ _ _ _ b hb
    constructor
    · rw [htot, htasks, mkBlockTasks_map_est_sum, selectGreedy_snd]
      ring
    · rw [htot]
      exact selectGreedy_le _ _ _ hsel

/-- C6 (amended): an emitted block is shallow work exactly when it was
built by the final planned iteration, i.e. when its block number equals
`effectiveBlocks`; every other emitted block is deep work.  (When the task
pool runs out before the final iteration, the last emitted block is deep
work; see the counterexample.) -/
theorem generateDailySchedule_blockType (expQ : ℚ → ℚ) (ts : List Task)
    (cfg : ScheduleConfig) (b : ScheduledBlock)
    (hb : b ∈ generateDailySchedule expQ ts cfg) :
    b.blockType = (if b.blockNumber = effectiveBlocksOf cfg then BlockType.shallow_work
      else BlockType.deep_work) := by
  unfold generateDailySchedule at hb
  split at hb
  · exact absurd hb (List.not_mem_nil b)
  · obtain ⟨i, hi, cands, hsel, hnum, htype, htasks, htot⟩ :=
      mem_scheduleLoop _ _ _ _ _ _ b hb
    rw [htype, hnum]
    have hilt : i < effectiveBlocksOf cfg := List.mem_range.mp hi
    have h1 := one_le_effectiveBlocksOf cfg
    have hiff : (i = effectiveBlocksOf cfg - 1) ↔ (i + 1 = effectiveBlocksOf cfg) := by omega
    rw [if_congr hiff rfl rfl]

/-- C10: the emitted block numbers are exactly the consecutive integers
1, 2, ..., k with no gaps: a skipped iteration leaves the pool unchanged,
so no later iteration can emit. -/
theorem generateDailySchedule_blockNumbers (expQ : ℚ → ℚ) (ts : List Task)
    (cfg : ScheduleConfig) (hids : ts.Pairwise (fun a b => a.id ≠ b.id))
    (hpos : ∀ t ∈ ts, 0 < t.estimatedMinutes) :
    (generateDailySchedule expQ ts cfg).map (fun b => b.blockNumber) =
      List.range' 1 (generateDailySchedule expQ ts cfg).length := by
  unfold generateDailySchedule
  split
  · simp
  · rw [List.range_eq_range']
    exact scheduleLoop_map_blockNumber _ _ _ _ 0 _ _

/-- A single pending one-hour task. -/
def cexTask : Task :=
  { id := 1, title := "t", estimatedMinutes := 60, difficulty := 5, priority := 3,
    status := TaskStatus.pending, sortOrder := 0 }

/-- A configuration planning two effective blocks (5 hours, 120-minute
blocks, 15-minute breaks). -/
def cexConfig : ScheduleConfig :=
  { startTime := "09:00", hoursRequested := 5, blockDurationMinutes := 120,
    breakDurationMinutes := 15, calibration := none }

/-- The concrete configuration plans exactly two blocks. -/
lemma effectiveBlocksOf_cex : effectiveBlocksOf cexConfig = 2 := by
  norm_num [effectiveBlocksOf, effectiveMinutesOf, totalMinutesOf, bufferMinutesOf,
    blockWithBreakOf, cexConfig]
  rfl

/-- Evaluating the schedule of the single one-hour task under `cexConfig`:
one deep-work block is emitted. -/
lemma cexSchedule_map_blockType :
    (generateDailySchedule (fun _ => 0) [cexTask] cexConfig).map (fun b => b.blockType) =
      [BlockType.deep_work] := by
  unfold generateDailySchedule
  rw [effectiveBlocksOf_cex]
  norm_num [cexConfig, cexTask, scheduleLoop, selectGreedy, mkBlockTasks,
    List.insertionSort, List.orderedInsert, List.range_succ, List.enum, List.enumFrom,
    List.contains, List.elem]

/-- The concrete schedule is non-empty. -/
lemma cexSchedule_ne_nil :
    generateDailySchedule (fun _ => 0) [cexTask] cexConfig ≠ [] := by
  intro h
  have hmap := cexSchedule_map_blockType
  rw [h] at hmap
  simp at hmap

/-- C6 counterexample: under `cexConfig` more than one block fits
(`effectiveBlocks = 2`) and at least one block is emitted, yet the single
(hence last) emitted block is deep work, not shallow work — the pool runs
out before the final planned iteration. -/
theorem generateDailySchedule_last_block_not_shallow_cex :
    (generateDailySchedule (fun _ => 0) [cexTask] cexConfig ≠ []) ∧
    1 < effectiveBlocksOf cexConfig ∧
    (generateDailySchedule (fun _ => 0) [cexTask] cexConfig).map (fun b => b.blockType) =
      [BlockType.deep_work] :=
  ⟨cexSchedule_ne_nil, by rw [effectiveBlocksOf_cex]; norm_num, cexSchedule_map_blockType⟩

/-- Witness for C4 at the concrete schedule's first block. -/
theorem generateDailySchedule_lower_the_hurdle_witness :
    ((generateDailySchedule (fun _ => 0) [cexTask] cexConfig).headI.tasks.map
        (fun st => st.sortOrder) =
      List.range (generateDailySchedule (fun _ => 0) [cexTask] cexConfig).headI.tasks.length) ∧
    ((generateDailySchedule (fun _ => 0) [cexTask] cexConfig).headI.tasks.map
        (fun st => st.task.difficulty)).Pairwise (· ≤ ·) :=
  generateDailySchedule_lower_the_hurdle (fun _ => 0) [cexTask] cexConfig _
    (headI_mem cexSchedule_ne_nil)

/-- Witness for C5 at the concrete schedule's first block. -/
theorem generateDailySchedule_block_capacity_witness :
    ((generateDailySchedule (fun _ => 0) [cexTask] cexConfig).headI.totalMinutes =
      ((generateDailySchedule (fun _ => 0) [cexTask] cexConfig).headI.tasks.map
        (fun st => st.task.estimatedMinutes)).sum) ∧
    (generateDailySchedule (fun _ => 0) [cexTask] cexConfig).headI.totalMinutes ≤
      cexConfig.blockDurationMinutes :=
  generateDailySchedule_block_capacity (fun _ => 0) [cexTask] cexConfig
    (by norm_num [cexTask]) _ (headI_mem cexSchedule_ne_nil)

/-- Witness for the amended C6 at the concrete schedule's first block. -/
theorem generateDailySchedule_blockType_witness :
    (generateDailySchedule (fun _ => 0) [cexTask] cexConfig).headI.blockType =
      (if (generateDailySchedule (fun _ => 0) [cexTask] cexConfig).headI.blockNumber =
          effectiveBlocksOf cexConfig then BlockType.shallow_work
        else BlockType.deep_work) :=
  generateDailySchedule_blockType (fun _ => 0) [cexTask] cexConfig _
    (headI_mem cexSchedule_ne_nil)

/-- Witness for C10 at the concrete input. -/
theorem generateDailySchedule_blockNumbers_witness :
    (generateDailySchedule (fun _ => 0) [cexTask] cexConfig).map (fun b => b.blockNumber) =
      List.range' 1 (generateDailySchedule (fun _ => 0) [cexTask] cexConfig).length :=
  generateDailySchedule_blockNumbers (fun _ => 0) [cexTask] cexConfig (by simp)
    (by norm_num [cexTask])

/-- Read an array's contents from a store of arrays. -/
def readArr {α : Type*} (heap : List (List α)) (r : ℕ) : List α := heap.getD r []

/-- Overwrite an array in place (JavaScript `Array.prototype.sort`,
`push`, and reassignment-free mutation all reduce to this). -/
def writeArr {α : Type*} (heap : List (List α)) (r : ℕ) (l : List α) : List (List α) :=
  heap.set r l

/-- Allocate a fresh array (`filter`/`map`/`[...]` spreads and array
literals), returning its reference. -/
def allocArr {α : Type*} (heap : List (List α)) (l : List α) : ℕ × List (List α) :=
  (heap.length, heap ++ [l])

/-- The arrays live during `generateDailySchedule`, one store per element
type.  `Task` objects themselves are plain values: the source contains no
property assignment to a task, so object mutation does not occur and only
array identity must be tracked. -/
structure GenHeap where
  taskArrs : List (List Task)
  scoredArrs : List (List ScoredTask)
  staskArrs : List (List ScheduledTask)
  blockArrs : List (List ScheduledBlock)

/-- Heap translation of the greedy candidate scan: each accepted candidate
is pushed onto the `selectedForBlock` array in place. -/
def selectLoopHeap (blockDur : ℚ) (selRef : ℕ) :
    List ScoredTask → ℚ → GenHeap → GenHeap × ℚ
  | [], fill, h => (h, fill)
  | c :: rest, fill, h =>
    if fill + c.task.estimatedMinutes ≤ blockDur then
      let fill' := fill + c.task.estimatedMinutes
      let pushed := writeArr h.scoredArrs selRef (readArr h.scoredArrs selRef ++ [c])
      let h' : GenHeap := { h with scoredArrs := pushed }
      if blockDur * 0.8 ≤ fill' then (h', fill')
      else selectLoopHeap blockDur selRef rest fill' h'
    else selectLoopHeap blockDur selRef rest fill h

/-- Heap translation of the block-construction loop.  In the non-last
iterations `candidateTasks` aliases the `remainingTasks` array (no copy)
exactly as in the source; in the last iteration it is a `[...]` spread
that is then sorted in place.  The `forEach` pushes building `blockTasks`
are performed as one in-place write of the enumerated list. -/
def scheduleLoopHeap (blockDur breakDur : ℚ) (effectiveBlocks : ℕ) (blocksRef : ℕ) :
    List ℕ → ℕ → ℚ → GenHeap → GenHeap
  | [], _, _, h => h
  | i :: is, remRef, currentTime, h =>
    if (readArr h.scoredArrs remRef).isEmpty then h
    else
      let a1 := allocArr h.staskArrs ([] : List ScheduledTask)
      let btRef := a1.1
      let h1 : GenHeap := { h with staskArrs := a1.2 }
      let cand : ℕ × GenHeap :=
        if i = effectiveBlocks - 1 then
          let a2 := allocArr h1.scoredArrs (readArr h1.scoredArrs remRef)
          let h2 : GenHeap := { h1 with scoredArrs := a2.2 }
          let sorted := writeArr h2.scoredArrs a2.1
            (List.insertionSort (fun a b => a.task.difficulty ≤ b.task.difficulty)
              (readArr h2.scoredArrs a2.1))
          (a2.1, { h2 with scoredArrs := sorted })
        else (remRef, h1)
      let candRef := cand.1
      let h4 := cand.2
      let a3 := allocArr h4.scoredArrs ([] : List ScoredTask)
      let selRef := a3.1
      let h5 : GenHeap := { h4 with scoredArrs := a3.2 }
      let sl := selectLoopHeap blockDur selRef (readArr h5.scoredArrs candRef) 0 h5
      let h6 := sl.1
      let blockMinutesFilled := sl.2
      let selectedIds := (readArr h6.scoredArrs selRef).map (fun s => s.task.id)
      let a4 := allocArr h6.scoredArrs
        ((readArr h6.scoredArrs remRef).filter (fun t => !(selectedIds.contains t.task.id)))
      let remRef' := a4.1
      let h7 : GenHeap := { h6 with scoredArrs := a4.2 }
      let selSorted := writeArr h7.scoredArrs selRef
        (List.insertionSort (fun a b => a.task.difficulty ≤ b.task.difficulty)
          (readArr h7.scoredArrs selRef))
      let h8 : GenHeap := { h7 with scoredArrs := selSorted }
      let btWritten := writeArr h8.staskArrs btRef
        (((readArr h8.scoredArrs selRef).enum).map
          (fun p => { task := p.2.task, sortOrder := p.1 }))
      let h9 : GenHeap := { h8 with staskArrs := btWritten }
      if (readArr h9.staskArrs btRef).isEmpty then
        scheduleLoopHeap blockDur breakDur effectiveBlocks blocksRef is remRef' currentTime h9
      else
        let blocksWritten := writeArr h9.blockArrs blocksRef
          (readArr h9.blockArrs blocksRef ++
            [{ blockNumber := i + 1
               startTime := formatTime currentTime
               endTime := formatTime (currentTime + blockDur)
               blockType := if i = effectiveBlocks - 1 then BlockType.shallow_work
                 else BlockType.deep_work
               tasks := readArr h9.staskArrs btRef
               totalMinutes := blockMinutesFilled }])
        let h10 : GenHeap := { h9 with blockArrs := blocksWritten }
        scheduleLoopHeap blockDur breakDur effectiveBlocks blocksRef is remRef'
          (currentTime + blockDur + breakDur) h10

/-- Heap translation of `generateDailySchedule`: the input task array is
read (`length`, `filter`) but never written; scoring allocates a fresh
scored array which is sorted in place; `remainingTasks = [...scoredTasks]`
allocates the spread copy; `blocks` is a fresh array receiving pushes. -/
def generateDailyScheduleHeap (expQ : ℚ → ℚ) (pendingTasksRef : ℕ)
    (config : ScheduleConfig) (h : GenHeap) : List ScheduledBlock × GenHeap :=
  let pendingTasks := readArr h.taskArrs pendingTasksRef
  if pendingTasks.isEmpty then ([], h)
  else
    let a1 := allocArr h.scoredArrs
      ((pendingTasks.filter
          (fun t => t.status == TaskStatus.pending || t.status == TaskStatus.scheduled)).map
        (fun task => { task := task, score := calculateTaskScore expQ task config.calibration }))
    let h1 : GenHeap := { h with scoredArrs := a1.2 }
    let scoredSorted := writeArr h1.scoredArrs a1.1
      (List.insertionSort (fun a b => b.score ≤ a.score) (readArr h1.scoredArrs a1.1))
    let h2 : GenHeap := { h1 with scoredArrs := scoredSorted }
    let a2 := allocArr h2.scoredArrs (readArr h2.scoredArrs a1.1)
    let h3 : GenHeap := { h2 with scoredArrs := a2.2 }
    let a3 := allocArr h3.blockArrs ([] : List ScheduledBlock)
    let h4 : GenHeap := { h3 with blockArrs := a3.2 }
    let h5 := scheduleLoopHeap config.blockDurationMinutes config.breakDurationMinutes
      (effectiveBlocksOf config) a3.1 (List.range (effectiveBlocksOf config)) a2.1
      (parseTime config.startTime) h4
    (readArr h5.blockArrs a3.1, h5)

/-- The arrays live during `computeCalibrationProfile`. -/
structure CalHeap where
  fbArrs : List (List FeedbackWithDifficulty)
  planArrs : List (List DailyPlanSummary)
  ratArrs : List (List ℚ)

/-- Heap translation of `computeCalibrationProfile`: the three rating
filters allocate fresh feedback arrays; `difficulties` is a fresh mapped
array sorted in place; `daysWithPlans` is a fresh filter;
`[...dailyPlanData]` allocates a spread whose filtered copy is sorted in
place; the input arrays are only read (the energy loop's `for-of` and the
filters). -/
def computeCalibrationProfileHeap (getDay : String → Fin 7) (getTime : String → ℤ)
    (fbRef planRef : ℕ) (h : CalHeap) : CalibrationProfile × CalHeap :=
  let feedbackEntries := readArr h.fbArrs fbRef
  if feedbackEntries.length < 3 then
    ({ skillLevel := 5, idealDifficulty := 5.2, confidence := 0,
       dataPoints := feedbackEntries.length, energyByDay := [], avgTasksPerDay := 0,
       avgHoursPerDay := 0, currentStreak := 0 }, h)
  else
    let a1 := allocArr h.fbArrs
      (feedbackEntries.filter (fun f => f.difficultyRating == some Rating.just_right))
    let h1 : CalHeap := { h with fbArrs := a1.2 }
    let a2 := allocArr h1.fbArrs
      (feedbackEntries.filter (fun f => f.difficultyRating == some Rating.too_easy))
    let h2 : CalHeap := { h1 with fbArrs := a2.2 }
    let a3 := allocArr h2.fbArrs
      (feedbackEntries.filter (fun f => f.difficultyRating == some Rating.too_hard))
    let h3 : CalHeap := { h2 with fbArrs := a3.2 }
    let justRightTasks := readArr h3.fbArrs a1.1
    let sk : ℚ × CalHeap :=
      if justRightTasks.length ≠ 0 then
        let b1 := allocArr h3.ratArrs (justRightTasks.map (fun f => f.taskDifficulty))
        let h4 : CalHeap := { h3 with ratArrs := b1.2 }
        let ratSorted := writeArr h4.ratArrs b1.1
          (List.insertionSort (fun a b : ℚ => a ≤ b) (readArr h4.ratArrs b1.1))
        let h5 : CalHeap := { h4 with ratArrs := ratSorted }
        let difficulties := readArr h5.ratArrs b1.1
        let mid := difficulties.length / 2
        (if difficulties.length % 2 = 0 then
            (difficulties.getD (mid - 1) 0 + difficulties.getD mid 0) / 2
          else difficulties.getD mid 0, h5)
      else
        let tooEasyTasks := readArr h3.fbArrs a2.1
        let tooHardTasks := readArr h3.fbArrs a3.1
        let easyAvg : ℚ :=
          if tooEasyTasks.length ≠ 0 then
            tooEasyTasks.foldl (fun sum f => sum + f.taskDifficulty) 0 /
              (tooEasyTasks.length : ℚ)
          else 3
        let hardAvg : ℚ :=
          if tooHardTasks.length ≠ 0 then
            tooHardTasks.foldl (fun sum f => sum + f.taskDifficulty) 0 /
              (tooHardTasks.length : ℚ)
          else 7
        ((easyAvg + hardAvg) / 2, h3)
    let skillLevel := max 1 (min 10 sk.1)
    let h6 := sk.2
    let idealDifficulty := min 10 (skillLevel * 1.04)
    let confidence := min 1 ((feedbackEntries.length : ℚ) / 33)
    let dailyPlanData := readArr h6.planArrs planRef
    let c1 := allocArr h6.planArrs
      (dailyPlanData.filter (fun p => decide (p.hoursRequested.getD 0 ≠ 0)))
    let h7 : CalHeap := { h6 with planArrs := c1.2 }
    let daysWithPlans := readArr h7.planArrs c1.1
    let avgHoursPerDay : ℚ :=
      if daysWithPlans.length ≠ 0 then
        daysWithPlans.foldl (fun sum p => sum + p.hoursRequested.getD 0) 0 /
          (daysWithPlans.length : ℚ)
      else 0
    let c2 := allocArr h7.planArrs (readArr h7.planArrs planRef)
    let h8 : CalHeap := { h7 with planArrs := c2.2 }
    let c3 := allocArr h8.planArrs
      ((readArr h8.planArrs c2.1).filter (fun p => p.eodReviewCompleted))
    let h9 : CalHeap := { h8 with planArrs := c3.2 }
    let planSorted := writeArr h9.planArrs c3.1
      (List.insertionSort (fun a b => getTime b.date ≤ getTime a.date)
        (readArr h9.planArrs c3.1))
    let h10 : CalHeap := { h9 with planArrs := planSorted }
    let sortedPlans := readArr h10.planArrs c3.1
    let currentStreak :=
      match sortedPlans with
      | [] => 0
      | p :: rest => 1 + streakWalk getTime p rest
    ({ skillLevel := round1 skillLevel, idealDifficulty := round1 idealDifficulty,
       confidence := round2 confidence, dataPoints := feedbackEntries.length,
       energyByDay := energyByDayOf getDay dailyPlanData, avgTasksPerDay := 0,
       avgHoursPerDay := round1 avgHoursPerDay, currentStreak := currentStreak }, h10)

/-- The greedy scan only writes scored arrays, never the task store. -/
lemma selectLoopHeap_taskArrs (d : ℚ) (selRef : ℕ) :
    ∀ (l : List ScoredTask) (fill : ℚ) (h : GenHeap),
      ((selectLoopHeap d selRef l fill h).1).taskArrs = h.taskArrs := by
  intro l
  induction l with
  | nil => intro fill h; rfl
  | cons c rest ih =>
    intro fill h
    simp only [selectLoopHeap]
    split_ifs
    · rfl
    · rw [ih]
    · exact ih fill h

/-- The block loop never writes the task store. -/
lemma scheduleLoopHeap_taskArrs (d br : ℚ) (eb bRef : ℕ) :
    ∀ (idxs : List ℕ) (remRef : ℕ) (t : ℚ) (h : GenHeap),
      (scheduleLoopHeap d br eb bRef idxs remRef t h).taskArrs = h.taskArrs := by
  intro idxs
  induction idxs with
  | nil => intro remRef t h; rfl
  | cons i is ih =>
    intro remRef t h
    simp only [scheduleLoopHeap]
    split_ifs <;> first
      | rfl
      | (rw [ih]; simp [selectLoopHeap_taskArrs])

/-- C9: neither core function mutates its inputs.  In the heap semantics
(where every in-place `sort`/`push` is a store write), running
`generateDailySchedule` leaves the task store untouched, and running
`computeCalibrationProfile` leaves the input feedback array and the input
daily-plan array exactly as supplied — every sort happens on a freshly
allocated (`filter`/`map`/spread) array.  Task/feedback/summary objects
are plain values here because the source never assigns to their
properties. -/
theorem core_functions_do_not_mutate_inputs (expQ : ℚ → ℚ) (cfg : ScheduleConfig)
    (ts : List Task) (getDay : String → Fin 7) (getTime : String → ℤ)
    (fb : List FeedbackWithDifficulty) (dp : List DailyPlanSummary) :
    ((generateDailyScheduleHeap expQ 0 cfg ⟨[ts], [], [], []⟩).2).taskArrs = [ts] ∧
    readArr ((computeCalibrationProfileHeap getDay getTime 0 0 ⟨[fb], [dp], []⟩).2).fbArrs 0
      = fb ∧
    readArr ((computeCalibrationProfileHeap getDay getTime 0 0 ⟨[fb], [dp], []⟩).2).planArrs 0
      = dp := by
  refine ⟨?_, ?_, ?_⟩
  · simp only [generateDailyScheduleHeap]
    split_ifs
    · rfl
    · simp [scheduleLoopHeap_taskArrs]
  · simp only [computeCalibrationProfileHeap]
    split_ifs <;> simp [readArr, writeArr, allocArr]
  · simp only [computeCalibrationProfileHeap]
    split_ifs <;> simp [readArr, writeArr, allocArr]

end Flow
